import Mathlib

/-!
Verification of the astrolabe-sdk oversized-transaction assembly pipeline.

The development shallowly embeds the pure planning logic of
`createComplexBufferedTransaction` (src/complexBufferedTransaction.ts),
`createComplexTransaction` (src/complexTransaction.ts) and
`createProposeVoteExecuteTransaction` (src/unnamed/part_002):
the header-count conversion to the smart-account message format, the
custom message codec, the buffer chunker, the buffer-slot probe loop,
the lookup-table resolver and the staged envelope plan.  External
collaborators (RPC fetches, PDA derivation, `compileTransaction`, SHA-256)
are modelled as oracles passed in as parameters; a byte is a `Nat`
below 256 and an address is the list of its 32 raw key bytes.
-/

namespace Astrolabe

/-- Header of a decoded native compiled transaction message
(the `decoded.header` object produced by `decodeTransactionMessage`). -/
structure MessageHeader where
  numSignerAccounts : Nat
  numReadonlySignerAccounts : Nat
  numReadonlyNonSignerAccounts : Nat
deriving DecidableEq, Repr

/-- An on-chain address, represented by its 32 raw public-key bytes
(`bs58` encoding is a bijection on 32-byte strings, so the base58 string
used in the TypeScript source is interchangeable with the bytes). -/
abbrev Addr := List Nat

/-- One decoded native instruction (`decoded.instructions[i]`). -/
structure CompiledInstruction where
  programAddressIndex : Nat
  accountIndices : List Nat
  data : List Nat
deriving DecidableEq, Repr

/-- A decoded native compiled message: header, static account keys and
instruction list (`decodeTransactionMessage` output, the InnerMessage of
the spec). -/
structure InnerMessage where
  header : MessageHeader
  staticAccounts : List Addr
  instructions : List CompiledInstruction
deriving DecidableEq, Repr

/-- An address-table lookup reference: table address plus the writable and
readonly index lists. -/
structure AddressTableLookup where
  accountKey : Addr
  writableIndexes : List Nat
  readonlyIndexes : List Nat
deriving DecidableEq, Repr

/-- One instruction in the smart-account message format (field-renamed
copy of `CompiledInstruction`, as built by the conversion code). -/
structure SmartAccountInstruction where
  programIdIndex : Nat
  accountIndexes : List Nat
  data : List Nat
deriving DecidableEq, Repr

/-- The custom smart-account transaction message.  The three counts are
`Int` because the TypeScript conversion computes them by plain number
subtraction, which can go negative. -/
structure SmartAccountMessage where
  numSigners : Int
  numWritableSigners : Int
  numWritableNonSigners : Int
  accountKeys : List Addr
  instructions : List SmartAccountInstruction
  addressTableLookups : List AddressTableLookup
deriving DecidableEq, Repr

/-- Field-renaming map applied to each instruction by every conversion site
(`programIdIndex := ix.programAddressIndex`, `accountIndexes :=
ix.accountIndices`, `data := ix.data`). -/
def toSmartAccountInstruction (ix : CompiledInstruction) : SmartAccountInstruction :=
  { programIdIndex := ix.programAddressIndex
    accountIndexes := ix.accountIndices
    data := ix.data }

/-- Conversion from the decoded native message to the smart-account format,
as performed by `createComplexBufferedTransaction`
(src/complexBufferedTransaction.ts lines 85-112, and the identical copies in
src/unnamed/part_001) and by `createComplexTransaction`
(src/complexTransaction.ts lines 184-205): the writable counts are recomputed
from the decoded header. -/
def toSmartAccountMessage (decoded : InnerMessage) (lookups : List AddressTableLookup) :
    SmartAccountMessage :=
  let numSigners : Int := decoded.header.numSignerAccounts
  let numReadonlySigners : Int := decoded.header.numReadonlySignerAccounts
  { numSigners := numSigners
    numWritableSigners := numSigners - numReadonlySigners
    numWritableNonSigners :=
      (decoded.staticAccounts.length : Int) - numSigners -
        (decoded.header.numReadonlyNonSignerAccounts : Int)
    accountKeys := decoded.staticAccounts
    instructions := decoded.instructions.map toSmartAccountInstruction
    addressTableLookups := lookups }

/-- Conversion performed by `createProposeVoteExecuteTransaction`
(src/unnamed/part_002 lines 120-132): the counts are hardcoded to
`numSigners = 1`, `numWritableSigners = 1`,
`numWritableNonSigners = staticAccounts.length - 1` and the lookup list is
empty, ignoring the decoded header. -/
def toSmartAccountMessagePVE (decoded : InnerMessage) : SmartAccountMessage :=
  { numSigners := 1
    numWritableSigners := 1
    numWritableNonSigners := (decoded.staticAccounts.length : Int) - 1
    accountKeys := decoded.staticAccounts
    instructions := decoded.instructions.map toSmartAccountInstruction
    addressTableLookups := [] }

/-! ## Smart-account message codec

The generated encoder/decoder pair
(`getSmartAccountTransactionMessageEncoder` /
`getSmartAccountTransactionMessageDecoder`, imported from
`clients/js/src/generated/types/smartAccountTransactionMessage`) is generated
code that is not part of the repository sources, so the wire format is
modelled from the spec. -/

/-- Modelled from the spec: little-endian 4-byte unsigned length word used by
the generated borsh-style encoder for list lengths. -/
def encodeU32 (n : Nat) : List Nat :=
  [n % 256, n / 256 % 256, n / 65536 % 256, n / 16777216 % 256]

/-- Modelled from the spec: a length-prefixed byte vector (length word followed
by the bytes themselves, each reduced to the byte range). -/
def encodeBytes (l : List Nat) : List Nat :=
  encodeU32 l.length ++ l.map (· % 256)

/-- Modelled from the spec: an address is serialized as its 32 raw key bytes. -/
def encodeAddr (a : Addr) : List Nat := a

/-- Modelled from the spec: one instruction is its one-byte program index
followed by the account-index byte vector and the data byte vector. -/
def encodeInstruction (ix : SmartAccountInstruction) : List Nat :=
  [ix.programIdIndex % 256] ++ encodeBytes ix.accountIndexes ++ encodeBytes ix.data

/-- Modelled from the spec: one lookup is its 32-byte table address followed by
the writable-index and readonly-index byte vectors. -/
def encodeLookup (lk : AddressTableLookup) : List Nat :=
  encodeAddr lk.accountKey ++ encodeBytes lk.writableIndexes ++ encodeBytes lk.readonlyIndexes

/-- Modelled from the spec: a length-prefixed vector of encoded elements. -/
def encodeVec (f : α → List Nat) (xs : List α) : List Nat :=
  encodeU32 xs.length ++ (xs.map f).flatten

/-- Modelled from the spec: `encodeCustom`, the smart-account message encoder
missing from src/ — three one-byte header counts, then the account-key table,
the instruction list and the address-table-lookup list. -/
def encodeCustom (m : SmartAccountMessage) : List Nat :=
  [m.numSigners.toNat % 256, m.numWritableSigners.toNat % 256,
   m.numWritableNonSigners.toNat % 256]
  ++ encodeVec encodeAddr m.accountKeys
  ++ encodeVec encodeInstruction m.instructions
  ++ encodeVec encodeLookup m.addressTableLookups

/-- Read one byte off the stream. -/
def readU8 : List Nat → Option (Nat × List Nat)
  | [] => none
  | b :: rest => some (b, rest)

/-- Read exactly `n` bytes off the stream. -/
def readChunk (n : Nat) (s : List Nat) : Option (List Nat × List Nat) :=
  if n ≤ s.length then some (s.take n, s.drop n) else none

/-- Read a little-endian 4-byte unsigned length word. -/
def readU32 (s : List Nat) : Option (Nat × List Nat) := do
  let (bs, rest) ← readChunk 4 s
  match bs with
  | [b0, b1, b2, b3] => some (b0 + 256 * b1 + 65536 * b2 + 16777216 * b3, rest)
  | _ => none

/-- Read a length-prefixed byte vector. -/
def readBytes (s : List Nat) : Option (List Nat × List Nat) := do
  let (n, rest) ← readU32 s
  readChunk n rest

/-- Read a 32-byte address. -/
def readAddr (s : List Nat) : Option (Addr × List Nat) := readChunk 32 s

/-- Read one encoded instruction. -/
def readInstruction (s : List Nat) : Option (SmartAccountInstruction × List Nat) := do
  let (pix, s1) ← readU8 s
  let (accIdx, s2) ← readBytes s1
  let (dat, s3) ← readBytes s2
  some ({ programIdIndex := pix, accountIndexes := accIdx, data := dat }, s3)

/-- Read one encoded lookup. -/
def readLookup (s : List Nat) : Option (AddressTableLookup × List Nat) := do
  let (key, s1) ← readAddr s
  let (w, s2) ← readBytes s1
  let (r, s3) ← readBytes s2
  some ({ accountKey := key, writableIndexes := w, readonlyIndexes := r }, s3)

/-- Read exactly `n` consecutive elements with the element reader `p`. -/
def readCount (p : List Nat → Option (α × List Nat)) :
    Nat → List Nat → Option (List α × List Nat)
  | 0, s => some ([], s)
  | n + 1, s => do
    let (x, s1) ← p s
    let (xs, s2) ← readCount p n s1
    some (x :: xs, s2)

/-- Read a length-prefixed vector of elements. -/
def readVec (p : List Nat → Option (α × List Nat)) (s : List Nat) :
    Option (List α × List Nat) := do
  let (n, rest) ← readU32 s
  readCount p n rest

/-- Modelled from the spec: `decodeCustom`, the smart-account message decoder
missing from src/ — parses the three header counts and the three vectors and
requires the stream to be fully consumed. -/
def decodeCustom (s : List Nat) : Option SmartAccountMessage := do
  let (ns, s1) ← readU8 s
  let (nws, s2) ← readU8 s1
  let (nwns, s3) ← readU8 s2
  let (keys, s4) ← readVec readAddr s3
  let (ixs, s5) ← readVec readInstruction s4
  let (lks, s6) ← readVec readLookup s5
  if s6 = [] then
    some { numSigners := ns, numWritableSigners := nws, numWritableNonSigners := nwns,
           accountKeys := keys, instructions := ixs, addressTableLookups := lks }
  else none

/-- Structural validity of a serialized byte list: every entry is a byte and
the length fits the 4-byte length word. -/
def ValidBytes (l : List Nat) : Prop :=
  (∀ b ∈ l, b < 256) ∧ l.length < 4294967296

/-- Structural validity of an address: exactly 32 key bytes. -/
def ValidAddr (a : Addr) : Prop :=
  a.length = 32 ∧ ∀ b ∈ a, b < 256

/-- Structural validity of one smart-account instruction. -/
def ValidInstruction (ix : SmartAccountInstruction) : Prop :=
  ix.programIdIndex < 256 ∧ ValidBytes ix.accountIndexes ∧ ValidBytes ix.data

/-- Structural validity of one lookup reference. -/
def ValidLookup (lk : AddressTableLookup) : Prop :=
  ValidAddr lk.accountKey ∧ ValidBytes lk.writableIndexes ∧ ValidBytes lk.readonlyIndexes

/-- Structural validity of a smart-account message: the counts are in byte
range and every component is in range. -/
def ValidMessage (m : SmartAccountMessage) : Prop :=
  (0 ≤ m.numSigners ∧ m.numSigners < 256) ∧
  (0 ≤ m.numWritableSigners ∧ m.numWritableSigners < 256) ∧
  (0 ≤ m.numWritableNonSigners ∧ m.numWritableNonSigners < 256) ∧
  (∀ a ∈ m.accountKeys, ValidAddr a) ∧ m.accountKeys.length < 4294967296 ∧
  (∀ ix ∈ m.instructions, ValidInstruction ix) ∧ m.instructions.length < 4294967296 ∧
  (∀ lk ∈ m.addressTableLookups, ValidLookup lk) ∧
  m.addressTableLookups.length < 4294967296

instance : DecidablePred ValidBytes := fun l => by unfold ValidBytes; infer_instance

instance : DecidablePred ValidAddr := fun a => by unfold ValidAddr; infer_instance

instance : DecidablePred ValidInstruction := fun ix => by
  unfold ValidInstruction; infer_instance

instance : DecidablePred ValidLookup := fun lk => by unfold ValidLookup; infer_instance

instance : DecidablePred ValidMessage := fun m => by unfold ValidMessage; infer_instance

/-! ### Codec roundtrip lemmas -/

theorem readChunk_append (l r : List Nat) :
    readChunk l.length (l ++ r) = some (l, r) := by
  unfold readChunk
  rw [if_pos (by simp)]
  simp

theorem readU8_cons (b : Nat) (r : List Nat) : readU8 (b :: r) = some (b, r) := rfl

theorem readU32_encodeU32 (n : Nat) (hn : n < 4294967296) (r : List Nat) :
    readU32 (encodeU32 n ++ r) = some (n, r) := by
  have h4 : (encodeU32 n).length = 4 := rfl
  unfold readU32
  rw [show encodeU32 n ++ r =
        (n % 256) :: (n / 256 % 256) :: (n / 65536 % 256) :: (n / 16777216 % 256) :: r
      from rfl]
  have hc : readChunk 4
      ((n % 256) :: (n / 256 % 256) :: (n / 65536 % 256) :: (n / 16777216 % 256) :: r) =
      some ([n % 256, n / 256 % 256, n / 65536 % 256, n / 16777216 % 256], r) := by
    unfold readChunk
    rw [if_pos (by simp)]
    simp
  rw [hc]
  simp only [Option.bind_eq_bind, Option.some_bind]
  have : n % 256 + 256 * (n / 256 % 256) + 65536 * (n / 65536 % 256) +
      16777216 * (n / 16777216 % 256) = n := by omega
  rw [this]

theorem map_mod_id_of_bytes (l : List Nat) (h : ∀ b ∈ l, b < 256) :
    l.map (· % 256) = l := by
  induction l with
  | nil => rfl
  | cons b t ih =>
    simp only [List.map_cons, List.cons.injEq]
    exact ⟨Nat.mod_eq_of_lt (h b (by simp)),
           ih (fun x hx => h x (List.mem_cons_of_mem _ hx))⟩

theorem readBytes_encodeBytes (l : List Nat) (hv : ValidBytes l) (r : List Nat) :
    readBytes (encodeBytes l ++ r) = some (l, r) := by
  obtain ⟨hb, hl⟩ := hv
  unfold readBytes encodeBytes
  rw [List.append_assoc, readU32_encodeU32 l.length hl]
  simp only [Option.bind_eq_bind, Option.some_bind]
  rw [map_mod_id_of_bytes l hb]
  exact readChunk_append l r

theorem readAddr_encodeAddr (a : Addr) (hv : ValidAddr a) (r : List Nat) :
    readAddr (encodeAddr a ++ r) = some (a, r) := by
  unfold readAddr encodeAddr
  rw [← hv.1]
  exact readChunk_append a r

theorem readInstruction_encodeInstruction (ix : SmartAccountInstruction)
    (hv : ValidInstruction ix) (r : List Nat) :
    readInstruction (encodeInstruction ix ++ r) = some (ix, r) := by
  obtain ⟨hp, ha, hd⟩ := hv
  unfold readInstruction encodeInstruction
  simp only [List.append_assoc, List.cons_append, List.nil_append]
  rw [readU8_cons]
  simp only [Option.bind_eq_bind, Option.some_bind]
  rw [readBytes_encodeBytes ix.accountIndexes ha, Option.some_bind,
      readBytes_encodeBytes ix.data hd, Option.some_bind, Nat.mod_eq_of_lt hp]

theorem readLookup_encodeLookup (lk : AddressTableLookup)
    (hv : ValidLookup lk) (r : List Nat) :
    readLookup (encodeLookup lk ++ r) = some (lk, r) := by
  obtain ⟨hk, hw, hr⟩ := hv
  unfold readLookup encodeLookup
  simp only [List.append_assoc]
  rw [readAddr_encodeAddr lk.accountKey hk]
  simp only [Option.bind_eq_bind, Option.some_bind]
  rw [readBytes_encodeBytes lk.writableIndexes hw, Option.some_bind,
      readBytes_encodeBytes lk.readonlyIndexes hr, Option.some_bind]

theorem readCount_append {α : Type} (p : List Nat → Option (α × List Nat))
    (f : α → List Nat) (xs : List α)
    (h : ∀ x ∈ xs, ∀ r, p (f x ++ r) = some (x, r)) (r : List Nat) :
    readCount p xs.length ((xs.map f).flatten ++ r) = some (xs, r) := by
  induction xs generalizing r with
  | nil => rfl
  | cons x t ih =>
    simp only [List.map_cons, List.flatten_cons, List.length_cons, List.append_assoc]
    unfold readCount
    rw [h x (by simp)]
    simp only [Option.bind_eq_bind, Option.some_bind]
    rw [ih (fun y hy => h y (List.mem_cons_of_mem _ hy)) r]
    rfl

theorem readVec_encodeVec {α : Type} (p : List Nat → Option (α × List Nat))
    (f : α → List Nat) (xs : List α) (hl : xs.length < 4294967296)
    (h : ∀ x ∈ xs, ∀ r, p (f x ++ r) = some (x, r)) (r : List Nat) :
    readVec p (encodeVec f xs ++ r) = some (xs, r) := by
  unfold readVec encodeVec
  rw [List.append_assoc, readU32_encodeU32 xs.length hl]
  simp only [Option.bind_eq_bind, Option.some_bind]
  exact readCount_append p f xs h r

theorem decodeCustom_encodeCustom (m : SmartAccountMessage) (hv : ValidMessage m) :
    decodeCustom (encodeCustom m) = some m := by
  obtain ⟨hns, hnws, hnwns, hkeys, hkl, hixs, hixl, hlks, hlkl⟩ := hv
  unfold decodeCustom encodeCustom
  simp only [List.cons_append, List.nil_append]
  rw [readU8_cons]
  simp only [Option.bind_eq_bind, Option.some_bind]
  rw [readU8_cons, Option.some_bind, readU8_cons, Option.some_bind, List.append_assoc,
      readVec_encodeVec readAddr encodeAddr m.accountKeys hkl
        (fun a ha r => readAddr_encodeAddr a (hkeys a ha) r),
      Option.some_bind,
      readVec_encodeVec readInstruction encodeInstruction m.instructions hixl
        (fun ix hix r => readInstruction_encodeInstruction ix (hixs ix hix) r),
      Option.some_bind]
  rw [show encodeVec encodeLookup m.addressTableLookups =
        encodeVec encodeLookup m.addressTableLookups ++ [] by simp,
      readVec_encodeVec readLookup encodeLookup m.addressTableLookups hlkl
        (fun lk hlk r => readLookup_encodeLookup lk (hlks lk hlk) r),
      Option.some_bind]
  rw [if_pos rfl]
  have e1 : ((m.numSigners.toNat % 256 : Nat) : Int) = m.numSigners := by omega
  have e2 : ((m.numWritableSigners.toNat % 256 : Nat) : Int) = m.numWritableSigners := by
    omega
  have e3 : ((m.numWritableNonSigners.toNat % 256 : Nat) : Int) =
      m.numWritableNonSigners := by omega
  simp [e1, e2, e3]

/-! ## Buffer chunker

The chunking loop of `createComplexBufferedTransaction`
(src/complexBufferedTransaction.ts lines 132-136):
`for (let i = 0; i < finalBuffer.length; i += CHUNK)
   chunks.push(finalBuffer.subarray(i, Math.min(i + CHUNK, finalBuffer.length)))`
with `CHUNK = 900`.  Each iteration takes the next `c` bytes and advances by
`c`, which is `take c` followed by recursing on `drop c`. -/

/-- The chunking loop, generalized over the chunk size `c` (the source fixes
`c = 900`), with the loop counter expressed as fuel: each iteration consumes
at least one byte, so `b.length` iterations always suffice.  With `c = 0` the
source loop would not terminate; the model then stops at fuel exhaustion. -/
def chunkLoop (c : Nat) : Nat → List Nat → List (List Nat)
  | 0, _ => []
  | fuel + 1, b => if b = [] then [] else b.take c :: chunkLoop c fuel (b.drop c)

/-- The chunker: run the loop over the whole buffer. -/
def chunkBytes (c : Nat) (b : List Nat) : List (List Nat) := chunkLoop c b.length b

theorem chunkLoop_flatten (c : Nat) (hc : 0 < c) :
    ∀ (fuel : Nat) (b : List Nat), b.length ≤ fuel →
      (chunkLoop c fuel b).flatten = b := by
  intro fuel
  induction fuel with
  | zero =>
    intro b hb
    have hb0 : b = [] := List.length_eq_zero.mp (Nat.le_zero.mp hb)
    subst hb0
    rfl
  | succ n ih =>
    intro b hb
    unfold chunkLoop
    by_cases h : b = []
    · rw [if_pos h, h]; rfl
    · rw [if_neg h]
      have hpos : 0 < b.length := List.length_pos.mpr h
      simp only [List.flatten_cons]
      rw [ih (b.drop c) (by simp only [List.length_drop]; omega),
          List.take_append_drop]

theorem chunkLoop_size_le (c : Nat) :
    ∀ (fuel : Nat) (b : List Nat), ∀ ch ∈ chunkLoop c fuel b, ch.length ≤ c := by
  intro fuel
  induction fuel with
  | zero => intro b ch hch; cases hch
  | succ n ih =>
    intro b ch hch
    unfold chunkLoop at hch
    by_cases h : b = []
    · rw [if_pos h] at hch; cases hch
    · rw [if_neg h] at hch
      rcases List.mem_cons.mp hch with hch | hch
      · subst hch; simp only [List.length_take]; omega
      · exact ih (b.drop c) ch hch

theorem chunkLoop_count (c : Nat) (hc : 0 < c) :
    ∀ (fuel : Nat) (b : List Nat), b.length ≤ fuel →
      (chunkLoop c fuel b).length = (b.length + c - 1) / c := by
  intro fuel
  induction fuel with
  | zero =>
    intro b hb
    have hb0 : b = [] := List.length_eq_zero.mp (Nat.le_zero.mp hb)
    subst hb0
    have h0 : (0 + c - 1) / c = 0 := Nat.div_eq_of_lt (by omega)
    simpa using h0.symm
  | succ n ih =>
    intro b hb
    unfold chunkLoop
    by_cases h : b = []
    · rw [if_pos h, h]
      have h0 : (0 + c - 1) / c = 0 := Nat.div_eq_of_lt (by omega)
      simpa using h0.symm
    · rw [if_neg h]
      have hpos : 0 < b.length := List.length_pos.mpr h
      simp only [List.length_cons]
      rw [ih (b.drop c) (by simp only [List.length_drop]; omega)]
      simp only [List.length_drop]
      rcases Nat.lt_or_ge b.length c with hsmall | hbig
      · have h1 : b.length - c = 0 := by omega
        rw [h1]
        have h2 : (0 + c - 1) / c = 0 := Nat.div_eq_of_lt (by omega)
        have h3 : (b.length + c - 1) / c = 1 :=
          Nat.div_eq_of_lt_le (by omega) (by omega)
        omega
      · have h1 : b.length + c - 1 = (b.length - c + c - 1) + c := by omega
        rw [h1, Nat.add_div_right _ hc]

theorem chunkBytes_flatten (c : Nat) (hc : 0 < c) (b : List Nat) :
    (chunkBytes c b).flatten = b :=
  chunkLoop_flatten c hc b.length b (le_refl _)

theorem chunkBytes_size_le (c : Nat) (b : List Nat) :
    ∀ ch ∈ chunkBytes c b, ch.length ≤ c :=
  chunkLoop_size_le c b.length b

theorem chunkBytes_count (c : Nat) (hc : 0 < c) (b : List Nat) :
    (chunkBytes c b).length = (b.length + c - 1) / c :=
  chunkLoop_count c hc b.length b (le_refl _)

/-! ## Buffer slot allocator

The probe loop of `createComplexBufferedTransaction`
(src/complexBufferedTransaction.ts lines 152-159): starting from
`bufferIndex & 0xff`, probe the transaction-buffer PDA for the current index;
stop at the first index whose account does not exist, otherwise advance to
`(index + 1) & 0xff` and retry, for at most 256 attempts.  The PDA derivation
over a fixed `(settings, creator)` pair is injective in the index byte, so the
ledger is abstracted to an occupancy oracle on the index.  `x & 0xff` is
`x % 256`. -/

/-- The probe loop body: `fuel` remaining attempts, current candidate `idx`.
When fuel runs out the source simply exits the loop and uses the current
candidate. -/
def probeFree (occupied : Nat → Bool) : Nat → Nat → Nat
  | idx, 0 => idx
  | idx, fuel + 1 => if occupied idx then probeFree occupied ((idx + 1) % 256) fuel else idx

/-- The slot allocator of the buffered assembly: probe starting from
`bufferIndex % 256` with 256 attempts. -/
def allocateBufferIndex (occupied : Nat → Bool) (bufferIndex : Nat) : Nat :=
  probeFree occupied (bufferIndex % 256) 256

/-- The allocator as the claim words it (spec section 4.4): return the first
probed index whose account does not exist, and fail with `NoFreeSlot` (`none`)
when all 256 probes find occupied accounts. -/
def allocateSlotSpec (occupied : Nat → Bool) : Nat → Nat → Option Nat
  | _, 0 => none
  | idx, fuel + 1 =>
    if occupied idx then allocateSlotSpec occupied ((idx + 1) % 256) fuel else some idx

/-- The claim-worded allocator entry point. -/
def allocateSlotClaim (occupied : Nat → Bool) (startIndex : Nat) : Option Nat :=
  allocateSlotSpec occupied (startIndex % 256) 256

theorem probeFree_agrees_of_found (occupied : Nat → Bool) :
    ∀ fuel idx r, allocateSlotSpec occupied idx fuel = some r →
      probeFree occupied idx fuel = r := by
  intro fuel
  induction fuel with
  | zero => intro idx r h; cases h
  | succ n ih =>
    intro idx r h
    unfold allocateSlotSpec at h
    unfold probeFree
    by_cases hocc : occupied idx
    · rw [if_pos hocc] at h ⊢
      exact ih _ _ h
    · rw [if_neg hocc] at h ⊢
      exact (Option.some.injEq _ _).mp h

theorem probeFree_all_occupied (occupied : Nat → Bool)
    (hall : ∀ i, occupied i = true) :
    ∀ fuel idx, idx < 256 → probeFree occupied idx fuel = (idx + fuel) % 256 := by
  intro fuel
  induction fuel with
  | zero => intro idx hidx; simpa [probeFree] using (Nat.mod_eq_of_lt hidx).symm
  | succ n ih =>
    intro idx hidx
    unfold probeFree
    rw [if_pos (hall idx), ih ((idx + 1) % 256) (Nat.mod_lt _ (by omega))]
    omega

/-! ## Account-reference builder and lookup-table resolver

The execute-stage account setup of `createComplexTransaction`
(src/complexTransaction.ts lines 386-450): after the four explicit parameter
accounts (settings, proposal, transaction, signer), the instruction gets the
lookup-table addresses themselves (read-only, declaration order), then every
static account with its role derived from the header boundaries, then per
lookup table the writable-index-resolved addresses followed by the
readonly-index-resolved ones.  The ledger's account-info fetch is an oracle
from address to the raw account data bytes (`none` when the account does not
exist at the requested commitment). -/

/-- Writable/readonly role of a trailing account (the source only uses
`AccountRole.WRITABLE` and `AccountRole.READONLY` here). -/
inductive AccountRole2 | writable | readonly
deriving DecidableEq, Repr

/-- One trailing account reference: address plus role. -/
structure AccountRef where
  addr : Addr
  role : AccountRole2
deriving DecidableEq, Repr

/-- Error taxonomy of the assembly (spec section 7).  The model includes every
constructor of the spec taxonomy so that theorems can state which errors a
code path can and cannot produce. -/
inductive AsmError
  | malformedMessage
  | invariantViolationAccountIndex
  | invariantViolationAccountBump
  | tableNotFound
  | indexOutOfBounds
  | noFreeSlot
  | envelopeTooLarge
deriving DecidableEq, Repr

/-- Number of resolvable addresses of a lookup table with `dataLen` bytes of
account data: `Math.floor((altData.length - HEADER_SIZE) / PUBKEY_SIZE)` with
`HEADER_SIZE = 56`, `PUBKEY_SIZE = 32` (floored signed division, since the
subtraction can go negative in JavaScript). -/
def totalAddresses (dataLen : Nat) : Int := ((dataLen : Int) - 56).fdiv 32

/-- Table entry `i`: the 32 bytes at offset `56 + 32 * i`
(`altData.subarray(offset, offset + PUBKEY_SIZE)`). -/
def tableEntry (tdata : List Nat) (i : Nat) : Addr :=
  (tdata.drop (56 + 32 * i)).take 32

/-- The `getAddressAtIndex` helper of `createComplexTransaction`
(src/complexTransaction.ts lines 432-437): bounds-check against
`totalAddresses`, then extract the 32-byte entry. -/
def getAddressAtIndex (tdata : List Nat) (index : Nat) : Except AsmError Addr :=
  if totalAddresses tdata.length ≤ (index : Int) then Except.error AsmError.indexOutOfBounds
  else Except.ok (tableEntry tdata index)

/-- Resolution of one lookup table for the execute stage
(src/complexTransaction.ts lines 419-444): fetch the table account (failing
when it does not exist), then resolve every writable index (writable role)
followed by every readonly index (readonly role). -/
def resolveLookupRefs (ledger : Addr → Option (List Nat)) (lk : AddressTableLookup) :
    Except AsmError (List AccountRef) := do
  match ledger lk.accountKey with
  | none => throw AsmError.tableNotFound
  | some tdata => do
    let w ← lk.writableIndexes.mapM fun i =>
      (getAddressAtIndex tdata i).map fun a => AccountRef.mk a AccountRole2.writable
    let r ← lk.readonlyIndexes.mapM fun i =>
      (getAddressAtIndex tdata i).map fun a => AccountRef.mk a AccountRole2.readonly
    return w ++ r

/-- Role of static account `idx` derived from the header boundaries
(src/complexTransaction.ts lines 406-415). -/
def staticAccountRole (hdr : MessageHeader) (total : Nat) (idx : Nat) : AccountRole2 :=
  let numSignersInner : Int := hdr.numSignerAccounts
  let numWritableSignersInner : Int :=
    numSignersInner - (hdr.numReadonlySignerAccounts : Int)
  let numWritableNonSignersInner : Int :=
    (total : Int) - numSignersInner - (hdr.numReadonlyNonSignerAccounts : Int)
  if (idx : Int) < numSignersInner then
    if (idx : Int) < numWritableSignersInner then AccountRole2.writable
    else AccountRole2.readonly
  else if (idx : Int) - numSignersInner < numWritableNonSignersInner then
    AccountRole2.writable
  else AccountRole2.readonly

/-- The trailing account list built for the execute instruction
(src/complexTransaction.ts lines 389-445, the accounts appended after the
four explicit parameters): lookup-table addresses, static accounts,
per-table resolved addresses. -/
def buildExecuteRemainingAccounts (ledger : Addr → Option (List Nat))
    (decoded : InnerMessage) (lookups : List AddressTableLookup) :
    Except AsmError (List AccountRef) := do
  let tableRefs := lookups.map fun lk => AccountRef.mk lk.accountKey AccountRole2.readonly
  let staticRefs := decoded.staticAccounts.enum.map fun p =>
    AccountRef.mk p.2 (staticAccountRole decoded.header decoded.staticAccounts.length p.1)
  let resolvedPerTable ← lookups.mapM (resolveLookupRefs ledger)
  return tableRefs ++ staticRefs ++ resolvedPerTable.flatten

/-- The lookup-table address collection of `createComplexBufferedTransaction`
(src/complexBufferedTransaction.ts lines 308-326): for each lookup, fetch the
table; when the account has no data the loop `continue`s (the table is
silently skipped, with no error); otherwise every entry of the table is
enumerated. -/
def collectLookupTableAddresses (ledger : Addr → Option (List Nat))
    (lookups : List AddressTableLookup) : List (Addr × List Addr) :=
  lookups.filterMap fun lk =>
    match ledger lk.accountKey with
    | none => none
    | some tdata =>
      some (lk.accountKey,
        (List.range (totalAddresses tdata.length).toNat).map (tableEntry tdata))

/-! ### Builder lemmas -/

theorem mapM_ok_of_forall {α β : Type} (f : α → Except AsmError β) (g : α → β)
    (xs : List α) (h : ∀ x ∈ xs, f x = Except.ok (g x)) :
    xs.mapM f = Except.ok (xs.map g) := by
  induction xs with
  | nil => rfl
  | cons x t ih =>
    rw [List.mapM_cons, h x (by simp),
        ih (fun y hy => h y (List.mem_cons_of_mem _ hy))]
    rfl

theorem getAddressAtIndex_ok (tdata : List Nat) (i : Nat)
    (h : (i : Int) < totalAddresses tdata.length) :
    getAddressAtIndex tdata i = Except.ok (tableEntry tdata i) := by
  unfold getAddressAtIndex
  rw [if_neg (by omega)]

theorem resolveLookupRefs_ok (ledger : Addr → Option (List Nat))
    (lk : AddressTableLookup) (tdata : List Nat)
    (hl : ledger lk.accountKey = some tdata)
    (hw : ∀ i ∈ lk.writableIndexes, (i : Int) < totalAddresses tdata.length)
    (hr : ∀ i ∈ lk.readonlyIndexes, (i : Int) < totalAddresses tdata.length) :
    resolveLookupRefs ledger lk = Except.ok
      (lk.writableIndexes.map (fun i => AccountRef.mk (tableEntry tdata i) AccountRole2.writable)
        ++ lk.readonlyIndexes.map fun i =>
             AccountRef.mk (tableEntry tdata i) AccountRole2.readonly) := by
  unfold resolveLookupRefs
  rw [hl]
  dsimp only
  rw [mapM_ok_of_forall _
        (fun i => AccountRef.mk (tableEntry tdata i) AccountRole2.writable) _
        (fun i hi => by rw [getAddressAtIndex_ok tdata i (hw i hi)]; rfl)]
  rw [mapM_ok_of_forall _
        (fun i => AccountRef.mk (tableEntry tdata i) AccountRole2.readonly) _
        (fun i hi => by rw [getAddressAtIndex_ok tdata i (hr i hi)]; rfl)]
  rfl

/-! ## Buffered assembly plan

The staged envelope plan built by `createComplexBufferedTransaction`
(src/complexBufferedTransaction.ts lines 60-343).  The model follows the
source's evaluation order: the smart-account message is encoded and chunked,
a free buffer slot is probed, the create-buffer envelope is built from
`chunks[0]`, the extend envelopes from the remaining chunks, then the
accountIndex/accountBump validation runs (lines 211-217), and only after it
the fused materialize (create-from-buffer + create-proposal +
approve-proposal) and execute (execute + close-buffer) envelopes are built.
The first component of the result is the trace of envelopes constructed, in
construction order; the second is the function's outcome.  Envelope payloads
record the arguments handed to the generated instruction encoders;
`compileTransaction`, blockhash and PDA strings are external and do not
affect the plan's structure. -/

/-- Stage of an envelope in the buffered plan. -/
inductive StageTag | createBuffer | extendBuffer | createFromBuffer | execute
deriving DecidableEq, Repr

/-- One instruction given to a generated instruction builder, with the
arguments that the planning logic computes. -/
inductive InstrDesc
  | createTransactionBuffer (bufferIndex : Nat) (accountIndex : Int)
      (finalBufferSize : Nat) (buffer : Option (List Nat))
  | extendTransactionBuffer (buffer : List Nat)
  | createTransactionFromBuffer (accountIndex : Int) (accountBump : Int)
  | createProposal
  | approveProposal
  | executeTransaction
  | closeTransactionBuffer
deriving DecidableEq, Repr

/-- One unsigned envelope: its stage and the instructions it carries. -/
structure Envelope where
  tag : StageTag
  instructions : List InstrDesc
deriving DecidableEq, Repr

/-- Inputs of `createComplexBufferedTransaction` that the planning logic
depends on.  `accountIndex` and `smartAccountPdaBump` are `Int` because the
source validates them against the range 0-255 and they arrive as plain
numbers; `occupied` is the ledger occupancy oracle for the buffer-slot
probe. -/
structure BufferedParams where
  accountIndex : Int
  smartAccountPdaBump : Int
  bufferIndex : Nat
  decoded : InnerMessage
  lookups : List AddressTableLookup
  occupied : Nat → Bool

/-- The result record of `createComplexBufferedTransaction`
(src/complexBufferedTransaction.ts lines 335-342): note that `approveTx` is
assigned `createFromBufferTx` itself. -/
structure BufferedResult where
  createBufferTxs : List Envelope
  createFromBufferTx : Envelope
  approveTx : Envelope
  executeTx : Envelope
deriving DecidableEq, Repr

/-- The create-buffer envelope (src/complexBufferedTransaction.ts lines
162-181): it is built from `chunks[0]` with no guard on the number of
chunks, so an empty chunk list passes `undefined` (`none`) as the first
buffer slice.  `accountIndex` is the raw parameter, used here before the
range validation runs. -/
def mkCreateBufferEnvelope (chosenIndex : Nat) (accountIndex : Int)
    (finalBuffer : List Nat) : Envelope :=
  ⟨StageTag.createBuffer,
   [InstrDesc.createTransactionBuffer chosenIndex accountIndex finalBuffer.length
      (chunkBytes 900 finalBuffer).head?]⟩

/-- The staged plan of `createComplexBufferedTransaction`: trace of envelopes
in construction order, paired with the outcome. -/
def createComplexBufferedTransactionModel (p : BufferedParams) :
    List Envelope × Except AsmError BufferedResult :=
  let sam := toSmartAccountMessage p.decoded p.lookups
  let finalBuffer := encodeCustom sam
  let chunks := chunkBytes 900 finalBuffer
  let chosenIndex := allocateBufferIndex p.occupied p.bufferIndex
  let createBufferEnv := mkCreateBufferEnvelope chosenIndex p.accountIndex finalBuffer
  let extendEnvs := chunks.tail.map fun ch =>
    (⟨StageTag.extendBuffer, [InstrDesc.extendTransactionBuffer ch]⟩ : Envelope)
  let built := createBufferEnv :: extendEnvs
  if p.accountIndex < 0 ∨ 255 < p.accountIndex then
    (built, Except.error AsmError.invariantViolationAccountIndex)
  else if p.smartAccountPdaBump < 0 ∨ 255 < p.smartAccountPdaBump then
    (built, Except.error AsmError.invariantViolationAccountBump)
  else
    let materializeEnv : Envelope :=
      ⟨StageTag.createFromBuffer,
       [InstrDesc.createTransactionFromBuffer (p.accountIndex.emod 256)
          (p.smartAccountPdaBump.emod 256),
        InstrDesc.createProposal, InstrDesc.approveProposal]⟩
    let executeEnv : Envelope :=
      ⟨StageTag.execute,
       [InstrDesc.executeTransaction, InstrDesc.closeTransactionBuffer]⟩
    (built ++ [materializeEnv, executeEnv],
     Except.ok
       { createBufferTxs := built
         createFromBufferTx := materializeEnv
         approveTx := materializeEnv
         executeTx := executeEnv })

/-! ## Concrete fixtures -/

/-- A 32-byte key fixture. -/
def addrA : Addr := List.replicate 32 1

/-- A second 32-byte key fixture. -/
def addrB : Addr := List.replicate 32 2

/-- A third 32-byte key fixture. -/
def addrC : Addr := List.replicate 32 3

/-- A decoded message whose header declares two signers, none readonly. -/
def decodedTwoSigners : InnerMessage :=
  { header := { numSignerAccounts := 2, numReadonlySignerAccounts := 0,
                numReadonlyNonSignerAccounts := 0 }
    staticAccounts := [addrA, addrB, addrC]
    instructions := [] }

/-! ## Claim theorems -/

/-- C1 (amended): the conversion shared by `createComplexBufferedTransaction`
and `createComplexTransaction` recomputes the counts from the decoded header,
so for every decoded inner message and lookup list the produced
`SmartAccountMessage` satisfies `numWritableSigners + numReadonlySigners =
numSigners` and `numWritableNonSigners + numReadonlyNonSigners =
totalAccounts - numSigners`, with `numSigners` and the readonly counts those
of the decoded header and `totalAccounts` the static-account count.
(`createProposeVoteExecuteTransaction` is excluded: it hardcodes its counts,
see the counterexample.) -/
theorem c1_header_invariant :
    ∀ (decoded : InnerMessage) (lookups : List AddressTableLookup),
      (toSmartAccountMessage decoded lookups).numSigners =
          (decoded.header.numSignerAccounts : Int) ∧
      (toSmartAccountMessage decoded lookups).numWritableSigners +
          (decoded.header.numReadonlySignerAccounts : Int) =
        (decoded.header.numSignerAccounts : Int) ∧
      (toSmartAccountMessage decoded lookups).numWritableNonSigners +
          (decoded.header.numReadonlyNonSignerAccounts : Int) =
        ((toSmartAccountMessage decoded lookups).accountKeys.length : Int) -
          (decoded.header.numSignerAccounts : Int) := by
  intro decoded lookups
  refine ⟨rfl, ?_, ?_⟩ <;> simp [toSmartAccountMessage]

/-- C1 counterexample: `createProposeVoteExecuteTransaction` hardcodes
`numSigners = 1` and `numWritableSigners = 1`, so for a decoded message whose
header declares two signers (none readonly) the claimed first equation fails:
`numWritableSigners + numReadonlySigners = 1 + 0 ≠ 2 = numSigners`. -/
theorem c1_pve_counterexample :
    ¬ ((toSmartAccountMessagePVE decodedTwoSigners).numWritableSigners +
          (decodedTwoSigners.header.numReadonlySignerAccounts : Int) =
        (decodedTwoSigners.header.numSignerAccounts : Int)) := by decide

/-- C2: for every decoded inner message with lookup references (each table
present on the ledger and each requested index in range, which is exactly
when the builder succeeds), the execute-stage trailing account list is: first
each lookup-table address itself, read-only, in declaration order; then every
static account in original order with its role derived from the header's
signer/writable boundaries; then per lookup table, in declared order, every
writable-index-resolved address (writable) followed by every
readonly-index-resolved address (read-only). -/
theorem c2_execute_account_order (ledger : Addr → Option (List Nat))
    (decoded : InnerMessage) (lookups : List AddressTableLookup)
    (tdOf : AddressTableLookup → List Nat)
    (hp : ∀ lk ∈ lookups, ledger lk.accountKey = some (tdOf lk))
    (hw : ∀ lk ∈ lookups, ∀ i ∈ lk.writableIndexes,
        (i : Int) < totalAddresses (tdOf lk).length)
    (hr : ∀ lk ∈ lookups, ∀ i ∈ lk.readonlyIndexes,
        (i : Int) < totalAddresses (tdOf lk).length) :
    buildExecuteRemainingAccounts ledger decoded lookups = Except.ok
      ((lookups.map fun lk => AccountRef.mk lk.accountKey AccountRole2.readonly)
        ++ (decoded.staticAccounts.enum.map fun p =>
              AccountRef.mk p.2
                (staticAccountRole decoded.header decoded.staticAccounts.length p.1))
        ++ (lookups.map fun lk =>
              (lk.writableIndexes.map fun i =>
                 AccountRef.mk (tableEntry (tdOf lk) i) AccountRole2.writable)
              ++ lk.readonlyIndexes.map fun i =>
                   AccountRef.mk (tableEntry (tdOf lk) i) AccountRole2.readonly).flatten) := by
  unfold buildExecuteRemainingAccounts
  rw [mapM_ok_of_forall (resolveLookupRefs ledger)
        (fun lk =>
          (lk.writableIndexes.map fun i =>
             AccountRef.mk (tableEntry (tdOf lk) i) AccountRole2.writable)
          ++ lk.readonlyIndexes.map fun i =>
               AccountRef.mk (tableEntry (tdOf lk) i) AccountRole2.readonly)
        lookups
        (fun lk hlk =>
          resolveLookupRefs_ok ledger lk (tdOf lk) (hp lk hlk) (hw lk hlk) (hr lk hlk))]
  rfl

/-- Table key for the account-ordering fixture. -/
def tableKeyFx : Addr := List.replicate 32 3

/-- Table data for the fixture: 56 header bytes, then two 32-byte entries. -/
def tableDataFx : List Nat :=
  List.replicate 56 0 ++ List.replicate 32 7 ++ List.replicate 32 9

/-- A lookup requesting entry 0 writable and entry 1 readonly. -/
def lookupFx : AddressTableLookup :=
  { accountKey := tableKeyFx, writableIndexes := [0], readonlyIndexes := [1] }

/-- A ledger holding exactly the fixture table. -/
def ledgerFx : Addr → Option (List Nat) := fun a =>
  if a = tableKeyFx then some tableDataFx else none

/-- A decoded message with one writable signer and one writable non-signer. -/
def decodedFx : InnerMessage :=
  { header := { numSignerAccounts := 1, numReadonlySignerAccounts := 0,
                numReadonlyNonSignerAccounts := 0 }
    staticAccounts := [addrA, addrB]
    instructions := [] }

set_option maxRecDepth 8192 in
/-- C2 witness: the spec's fixture — two static accounts and one lookup table
contributing one writable and one readonly index — yields exactly
[table address RO, static 0, static 1, resolved writable W, resolved
readonly RO]. -/
theorem c2_execute_account_order_witness :
    buildExecuteRemainingAccounts ledgerFx decodedFx [lookupFx] = Except.ok
      [AccountRef.mk tableKeyFx AccountRole2.readonly,
       AccountRef.mk addrA AccountRole2.writable,
       AccountRef.mk addrB AccountRole2.writable,
       AccountRef.mk (List.replicate 32 7) AccountRole2.writable,
       AccountRef.mk (List.replicate 32 9) AccountRole2.readonly] := by
  rw [c2_execute_account_order ledgerFx decodedFx [lookupFx] (fun _ => tableDataFx)
        (by decide) (by decide) (by decide)]
  exact congrArg Except.ok (by decide)

/-- C3: for every structurally valid smart-account message, decoding the
bytes produced by the (spec-modelled) smart-account message encoder recovers
the same header counts, account keys, instruction list and lookup structure,
field for field. -/
theorem c3_codec_roundtrip (m : SmartAccountMessage) (hv : ValidMessage m) :
    decodeCustom (encodeCustom m) = some m :=
  decodeCustom_encodeCustom m hv

/-- A small but fully populated message fixture for the codec roundtrip. -/
def messageFx : SmartAccountMessage :=
  { numSigners := 1, numWritableSigners := 1, numWritableNonSigners := 1
    accountKeys := [addrA, addrB]
    instructions := [{ programIdIndex := 1, accountIndexes := [0], data := [7, 8] }]
    addressTableLookups :=
      [{ accountKey := addrC, writableIndexes := [0], readonlyIndexes := [1] }] }

set_option maxRecDepth 8192 in
/-- C3 witness: the fixture message round-trips through the codec. -/
theorem c3_codec_roundtrip_witness :
    decodeCustom (encodeCustom messageFx) = some messageFx :=
  c3_codec_roundtrip messageFx (by decide)

set_option maxRecDepth 100000 in
/-- C4: the chunker splits any byte-string left-to-right into exactly
`ceil(len / maxChunkSize)` chunks, no chunk exceeds `maxChunkSize`, their
concatenation reproduces the input; a 1800-byte buffer with chunk size 900
yields two 900-byte chunks and a 901-byte buffer yields chunks of 900 and 1
bytes. -/
theorem c4_chunker :
    (∀ (c : Nat) (b : List Nat), 0 < c →
      (chunkBytes c b).length = (b.length + c - 1) / c ∧
      (∀ ch ∈ chunkBytes c b, ch.length ≤ c) ∧
      (chunkBytes c b).flatten = b) ∧
    chunkBytes 900 (List.replicate 1800 0) =
      [List.replicate 900 0, List.replicate 900 0] ∧
    chunkBytes 900 (List.replicate 901 0) = [List.replicate 900 0, [0]] :=
  ⟨fun c b hc =>
     ⟨chunkBytes_count c hc b, chunkBytes_size_le c b, chunkBytes_flatten c hc b⟩,
   by decide, by decide⟩

/-- C4 witness: the chunker contract evaluated at chunk size 3 on a 4-byte
input. -/
theorem c4_chunker_witness :
    (chunkBytes 3 [1, 2, 3, 4]).length = ([1, 2, 3, 4].length + 3 - 1) / 3 ∧
    (chunkBytes 3 [1, 2, 3, 4]).flatten = [1, 2, 3, 4] :=
  ⟨(c4_chunker.1 3 [1, 2, 3, 4] (by decide)).1,
   (c4_chunker.1 3 [1, 2, 3, 4] (by decide)).2.2⟩

/-- Definitional step equation of the probe loop. -/
theorem probeFree_step (occupied : Nat → Bool) (idx fuel : Nat) :
    probeFree occupied idx (fuel + 1) =
      if occupied idx then probeFree occupied ((idx + 1) % 256) fuel else idx := rfl

set_option maxRecDepth 8192 in
/-- C5 (amended): the buffer slot allocator probes candidate indexes
`startIndex, startIndex+1, ...` reduced mod 256 against the ledger occupancy
oracle and returns the first free index: whenever the claim-worded allocator
finds a free slot, the code agrees; an empty ledger yields `startIndex`;
with `startIndex..startIndex+2` occupied it yields `startIndex+3`.  When all
256 probes find occupied accounts, however, the loop simply exits and the
code proceeds with the wrapped-around (occupied) start index instead of
failing (see the counterexample for the `NoFreeSlot` part of the claim). -/
theorem c5_allocator :
    (∀ (occupied : Nat → Bool) (start r : Nat),
        allocateSlotClaim occupied start = some r →
          allocateBufferIndex occupied start = r) ∧
    (∀ start : Nat, start < 256 →
        allocateBufferIndex (fun _ => false) start = start) ∧
    (∀ start : Nat, start + 3 < 256 →
        allocateBufferIndex
          (fun i => decide (i = start ∨ i = start + 1 ∨ i = start + 2)) start =
          start + 3) ∧
    (∀ (occupied : Nat → Bool) (start : Nat), (∀ i, occupied i = true) →
        allocateBufferIndex occupied start = start % 256) := by
  refine ⟨?_, ?_, ?_, ?_⟩
  · intro occupied start r h
    exact probeFree_agrees_of_found occupied 256 (start % 256) r h
  · intro start hs
    unfold allocateBufferIndex
    rw [Nat.mod_eq_of_lt hs]
    rfl
  · intro start hs
    unfold allocateBufferIndex
    rw [Nat.mod_eq_of_lt (by omega)]
    rw [show (256 : Nat) = 255 + 1 from rfl, probeFree_step,
        if_pos (by simp), Nat.mod_eq_of_lt (by omega)]
    rw [show (255 : Nat) = 254 + 1 from rfl, probeFree_step,
        if_pos (by simp), Nat.mod_eq_of_lt (by omega)]
    rw [show (254 : Nat) = 253 + 1 from rfl, probeFree_step,
        if_pos (by simp), Nat.mod_eq_of_lt (by omega)]
    rw [show (253 : Nat) = 252 + 1 from rfl, probeFree_step,
        if_neg (by simp; omega)]
  · intro occupied start hall
    unfold allocateBufferIndex
    rw [probeFree_all_occupied occupied hall 256 (start % 256)
          (Nat.mod_lt _ (by omega))]
    omega

/-- C5 witness: the allocator evaluated on an empty ledger at start index 5,
and with indexes 10-12 occupied at start index 10. -/
theorem c5_allocator_witness :
    allocateBufferIndex (fun _ => false) 5 = 5 ∧
    allocateBufferIndex (fun i => decide (i = 10 ∨ i = 11 ∨ i = 12)) 10 = 13 :=
  ⟨c5_allocator.2.1 5 (by decide), c5_allocator.2.2.1 10 (by decide)⟩

set_option maxRecDepth 8192 in
/-- C5 counterexample: on a ledger where every probe finds an occupied
account, the claim-worded allocator fails (`none`, the `NoFreeSlot` case) but
the code's probe loop exits after 256 attempts and proceeds with the
wrapped-around start index 5 — it does not fail. -/
theorem c5_nofreeslot_counterexample :
    allocateSlotClaim (fun _ => true) 5 = none ∧
    allocateBufferIndex (fun _ => true) 5 = 5 := ⟨rfl, rfl⟩

/-- C6 (amended): the execute-stage lookup-table resolver of
`createComplexTransaction` reads entry `i` at byte offset `56 + 32 * i`,
fails with `IndexOutOfBounds` whenever a requested index reaches
`(dataLength - 56) / 32`, and fails with `TableNotFound` whenever the table
account does not exist on the ledger.  (The buffered assembly's own table
fetch does not share the `TableNotFound` behaviour — see the
counterexample.) -/
theorem c6_resolver :
    (∀ (tdata : List Nat) (i : Nat), (i : Int) < totalAddresses tdata.length →
        getAddressAtIndex tdata i = Except.ok (tableEntry tdata i)) ∧
    (∀ (tdata : List Nat) (i : Nat), totalAddresses tdata.length ≤ (i : Int) →
        getAddressAtIndex tdata i = Except.error AsmError.indexOutOfBounds) ∧
    (∀ (ledger : Addr → Option (List Nat)) (lk : AddressTableLookup),
        ledger lk.accountKey = none →
          resolveLookupRefs ledger lk = Except.error AsmError.tableNotFound) := by
  refine ⟨fun td i h => getAddressAtIndex_ok td i h, ?_, ?_⟩
  · intro td i h
    unfold getAddressAtIndex
    rw [if_pos h]
  · intro ledger lk h
    unfold resolveLookupRefs
    rw [h]
    rfl

set_option maxRecDepth 8192 in
/-- C6 witness: a table with 10 resolvable addresses (376 data bytes) fails
with `IndexOutOfBounds` at requested index 10, and resolves index 9 to the
32 bytes at offset `56 + 32 * 9`. -/
theorem c6_resolver_witness :
    getAddressAtIndex (List.replicate 376 0) 10 =
        Except.error AsmError.indexOutOfBounds ∧
    getAddressAtIndex (List.replicate 376 0) 9 = Except.ok (List.replicate 32 0) := by
  constructor
  · exact c6_resolver.2.1 (List.replicate 376 0) 10 (by decide)
  · rw [c6_resolver.1 (List.replicate 376 0) 9 (by decide)]
    exact congrArg Except.ok (by decide)

/-- A lookup whose table account is absent from the ledger. -/
def missingLookup : AddressTableLookup :=
  { accountKey := List.replicate 32 4, writableIndexes := [0], readonlyIndexes := [] }

/-- C6 counterexample: the buffered assembly's lookup-table fetch
(src/complexBufferedTransaction.ts lines 311-313) `continue`s when the table
account does not exist — the table is silently dropped and no `TableNotFound`
failure is raised, although the execute-stage resolver does fail on the same
ledger. -/
theorem c6_buffered_skip_counterexample :
    collectLookupTableAddresses (fun _ => none) [missingLookup] = [] ∧
    resolveLookupRefs (fun _ => none) missingLookup =
      Except.error AsmError.tableNotFound := ⟨rfl, rfl⟩

/-- C7 (amended): an out-of-range `accountIndex` (or `accountBump`) makes the
buffered assembly fail with the invariant-violation error and no materialize
or execute envelope is ever constructed — but the create-buffer and extend
envelopes have already been built by the time the validation runs, so the
constructed trace is not empty (see the counterexample against the claim's
"before any envelope is constructed"). -/
theorem c7_validation :
    (∀ p : BufferedParams, (p.accountIndex < 0 ∨ 255 < p.accountIndex) →
      (createComplexBufferedTransactionModel p).2 =
          Except.error AsmError.invariantViolationAccountIndex ∧
      ∀ e ∈ (createComplexBufferedTransactionModel p).1,
        e.tag = StageTag.createBuffer ∨ e.tag = StageTag.extendBuffer) ∧
    (∀ p : BufferedParams, ¬(p.accountIndex < 0 ∨ 255 < p.accountIndex) →
      (p.smartAccountPdaBump < 0 ∨ 255 < p.smartAccountPdaBump) →
      (createComplexBufferedTransactionModel p).2 =
          Except.error AsmError.invariantViolationAccountBump ∧
      ∀ e ∈ (createComplexBufferedTransactionModel p).1,
        e.tag = StageTag.createBuffer ∨ e.tag = StageTag.extendBuffer) := by
  constructor
  · intro p h
    simp only [createComplexBufferedTransactionModel]
    rw [if_pos h]
    refine ⟨rfl, ?_⟩
    intro e he
    simp only at he
    rcases List.mem_cons.mp he with he | he
    · subst he; left; rfl
    · rcases List.mem_map.mp he with ⟨ch, _, hch⟩
      subst hch; right; rfl
  · intro p h1 h2
    simp only [createComplexBufferedTransactionModel]
    rw [if_neg h1, if_pos h2]
    refine ⟨rfl, ?_⟩
    intro e he
    simp only at he
    rcases List.mem_cons.mp he with he | he
    · subst he; left; rfl
    · rcases List.mem_map.mp he with ⟨ch, _, hch⟩
      subst hch; right; rfl

/-- A decoded message with no accounts and no instructions. -/
def decodedEmpty : InnerMessage :=
  { header := { numSignerAccounts := 0, numReadonlySignerAccounts := 0,
                numReadonlyNonSignerAccounts := 0 }
    staticAccounts := []
    instructions := [] }

/-- Buffered parameters with an out-of-range `accountIndex` of 300. -/
def paramsBadIndex : BufferedParams :=
  { accountIndex := 300, smartAccountPdaBump := 254, bufferIndex := 0,
    decoded := decodedEmpty, lookups := [], occupied := fun _ => false }

/-- C7 counterexample: with `accountIndex = 300` the assembly does throw the
invariant violation, but the create-buffer envelope has already been
constructed (carrying the raw unvalidated `accountIndex`), refuting the
claim that no create-buffer envelope bytes are produced for such inputs. -/
theorem c7_envelope_before_validation_counterexample :
    (createComplexBufferedTransactionModel paramsBadIndex).2 =
        Except.error AsmError.invariantViolationAccountIndex ∧
    (createComplexBufferedTransactionModel paramsBadIndex).1.map Envelope.tag =
      [StageTag.createBuffer] ∧
    (createComplexBufferedTransactionModel paramsBadIndex).1 ≠ [] := by
  refine ⟨rfl, rfl, ?_⟩
  intro h
  cases h

/-- C7 witness: the validation theorem applied to the concrete bad-index
parameters. -/
theorem c7_validation_witness :
    (createComplexBufferedTransactionModel paramsBadIndex).2 =
      Except.error AsmError.invariantViolationAccountIndex :=
  (c7_validation.1 paramsBadIndex (by decide)).1

/-- Modelled from the spec: the compiled byte size of an envelope is computed
by the external `compileTransaction`; the planner's control flow never
consults it.  A constant oracle standing for a compilation in which every
envelope exceeds the ~1232-byte budget. -/
def oversizedCompileOracle : Envelope → Nat := fun _ => 2000

/-- C8 (amended): fusion is unconditional — every successful buffered plan
carries the materialize, create-proposal and approve-proposal stages fused in
one envelope and the execute and close-buffer stages fused in another,
independent of any size budget, and no input ever fails with
`EnvelopeTooLarge`. -/
theorem c8_fusion_unconditional :
    (∀ (p : BufferedParams) (r : BufferedResult),
        (createComplexBufferedTransactionModel p).2 = Except.ok r →
          r.createFromBufferTx.instructions =
            [InstrDesc.createTransactionFromBuffer (p.accountIndex.emod 256)
               (p.smartAccountPdaBump.emod 256),
             InstrDesc.createProposal, InstrDesc.approveProposal] ∧
          r.executeTx.instructions =
            [InstrDesc.executeTransaction, InstrDesc.closeTransactionBuffer]) ∧
    (∀ p : BufferedParams,
        (createComplexBufferedTransactionModel p).2 ≠
          Except.error AsmError.envelopeTooLarge) := by
  constructor
  · intro p r h
    simp only [createComplexBufferedTransactionModel] at h
    by_cases h1 : p.accountIndex < 0 ∨ 255 < p.accountIndex
    · rw [if_pos h1] at h; cases h
    · rw [if_neg h1] at h
      by_cases h2 : p.smartAccountPdaBump < 0 ∨ 255 < p.smartAccountPdaBump
      · rw [if_pos h2] at h; cases h
      · rw [if_neg h2] at h
        simp only at h
        cases h
        exact ⟨rfl, rfl⟩
  · intro p
    simp only [createComplexBufferedTransactionModel]
    by_cases h1 : p.accountIndex < 0 ∨ 255 < p.accountIndex
    · rw [if_pos h1]; intro h; cases h
    · rw [if_neg h1]
      by_cases h2 : p.smartAccountPdaBump < 0 ∨ 255 < p.smartAccountPdaBump
      · rw [if_pos h2]; intro h; cases h
      · rw [if_neg h2]; intro h; cases h

/-- Buffered parameters that pass validation. -/
def paramsOk : BufferedParams :=
  { accountIndex := 0, smartAccountPdaBump := 254, bufferIndex := 0,
    decoded := decodedEmpty, lookups := [], occupied := fun _ => false }

/-- C8 counterexample: at concrete valid parameters, under a compile-size
oracle in which the fused materialize envelope weighs 2000 bytes — over the
1232-byte budget the source itself checks against in its diagnostics — the
plan still succeeds, still fuses the three stages into that one envelope,
and does not fail with `EnvelopeTooLarge`: the oversized envelope is
emitted. -/
theorem c8_no_size_check_counterexample :
    ((createComplexBufferedTransactionModel paramsOk).2.map fun r =>
        (r.createFromBufferTx.instructions.length,
         oversizedCompileOracle r.createFromBufferTx)) = Except.ok (3, 2000) ∧
    1232 < 2000 ∧
    (createComplexBufferedTransactionModel paramsOk).2 ≠
      Except.error AsmError.envelopeTooLarge := by
  refine ⟨rfl, by omega, ?_⟩
  intro h
  cases h

/-- The result record of the buffered plan at `paramsOk`, spelled out. -/
def paramsOkResult : BufferedResult :=
  { createBufferTxs :=
      [{ tag := StageTag.createBuffer
         instructions :=
           [InstrDesc.createTransactionBuffer 0 0 15 (some (List.replicate 15 0))] }]
    createFromBufferTx :=
      { tag := StageTag.createFromBuffer
        instructions :=
          [InstrDesc.createTransactionFromBuffer 0 254,
           InstrDesc.createProposal, InstrDesc.approveProposal] }
    approveTx :=
      { tag := StageTag.createFromBuffer
        instructions :=
          [InstrDesc.createTransactionFromBuffer 0 254,
           InstrDesc.createProposal, InstrDesc.approveProposal] }
    executeTx :=
      { tag := StageTag.execute
        instructions :=
          [InstrDesc.executeTransaction, InstrDesc.closeTransactionBuffer] } }

/-- C8 witness: the fusion theorem applied to the concrete valid
parameters. -/
theorem c8_fusion_unconditional_witness :
    paramsOkResult.createFromBufferTx.instructions =
      [InstrDesc.createTransactionFromBuffer ((0 : Int).emod 256)
         ((254 : Int).emod 256),
       InstrDesc.createProposal, InstrDesc.approveProposal] ∧
    paramsOkResult.executeTx.instructions =
      [InstrDesc.executeTransaction, InstrDesc.closeTransactionBuffer] :=
  c8_fusion_unconditional.1 paramsOk paramsOkResult rfl

/-- C9: for every input on which the buffered assembly succeeds, the returned
`approveTx` is the very `createFromBufferTx` envelope — no separate vote
envelope is ever produced, the approve-proposal instruction being fused into
the materialize envelope, so a caller that submits both fields submits the
same envelope twice. -/
theorem c9_approve_is_materialize :
    ∀ (p : BufferedParams) (r : BufferedResult),
      (createComplexBufferedTransactionModel p).2 = Except.ok r →
        r.approveTx = r.createFromBufferTx := by
  intro p r h
  simp only [createComplexBufferedTransactionModel] at h
  by_cases h1 : p.accountIndex < 0 ∨ 255 < p.accountIndex
  · rw [if_pos h1] at h; cases h
  · rw [if_neg h1] at h
    by_cases h2 : p.smartAccountPdaBump < 0 ∨ 255 < p.smartAccountPdaBump
    · rw [if_pos h2] at h; cases h
    · rw [if_neg h2] at h
      simp only at h
      cases h
      rfl

/-- C9 witness: the approve/materialize identity at the concrete valid
parameters. -/
theorem c9_approve_is_materialize_witness :
    paramsOkResult.approveTx = paramsOkResult.createFromBufferTx :=
  c9_approve_is_materialize paramsOk paramsOkResult rfl

/-- C10: on a zero-byte encoded message the chunk list is empty, yet the
create-buffer envelope is still constructed, with `none` (`chunks[0]`, i.e.
`undefined`) as its first buffer slice — there is no guard rejecting empty
input, and a present first slice is exactly equivalent to the encoded
message being non-empty. -/
theorem c10_empty_buffer_unguarded :
    chunkBytes 900 [] = [] ∧
    (∀ (i : Nat) (a : Int),
        (mkCreateBufferEnvelope i a []).instructions =
          [InstrDesc.createTransactionBuffer i a 0 none]) ∧
    (∀ b : List Nat, b ≠ [] → ∃ ch, (chunkBytes 900 b).head? = some ch) := by
  refine ⟨rfl, fun i a => rfl, ?_⟩
  intro b hb
  cases b with
  | nil => exact absurd rfl hb
  | cons x t => exact ⟨(x :: t).take 900, rfl⟩

/-- C10 witness: the unguarded construction evaluated on the empty buffer and
a one-byte buffer. -/
theorem c10_empty_buffer_unguarded_witness :
    chunkBytes 900 [] = [] ∧ ∃ ch, (chunkBytes 900 [5]).head? = some ch :=
  ⟨c10_empty_buffer_unguarded.1, c10_empty_buffer_unguarded.2.2 [5] (by decide)⟩

end Astrolabe
